import Mathlib

/-!
Shallow embedding of `src/diagram/DiagramRenderer.js` (classes
`DiagramRenderer`, `TableRenderer`, `RelationshipRenderer`) of the
dbmlRenderer repository, together with theorems settling the claims about
its zoom/pan coordinate transform, drag handling, grid layout, connection
point resolution, Manhattan path routing, and relationship parsing.

Coordinates, zoom factors and pan offsets are modelled as rationals `ℚ`
(the JS numbers, with exact arithmetic standing in for floating point;
"within floating-point tolerance" statements become exact equalities).
-/

namespace DbmlRenderer

/-- minZoom constant of `DiagramRenderer` (constructor, line 22). -/
def minZoom : ℚ := 0.25

/-- maxZoom constant of `DiagramRenderer` (constructor, line 23). -/
def maxZoom : ℚ := 3.0

/-- The zoom/pan part of `DiagramRenderer.state`: `state.zoom` and
`state.pan = (x, y)` (constructor, lines 11-16). -/
structure ZoomPanState where
  zoom : ℚ
  panX : ℚ
  panY : ℚ
  deriving DecidableEq, Repr

/-- Embeds `DiagramRenderer.screenToWorld` (lines 385-390):
`((sx - pan.x) / zoom, (sy - pan.y) / zoom)`. -/
def screenToWorld (s : ZoomPanState) (screenX screenY : ℚ) : ℚ × ℚ :=
  ((screenX - s.panX) / s.zoom, (screenY - s.panY) / s.zoom)

/-- Embeds `DiagramRenderer.worldToScreen` (lines 392-397):
`(wx * zoom + pan.x, wy * zoom + pan.y)`. -/
def worldToScreen (s : ZoomPanState) (worldX worldY : ℚ) : ℚ × ℚ :=
  (worldX * s.zoom + s.panX, worldY * s.zoom + s.panY)

/-- The data written into the viewport transform by
`DiagramRenderer.updateViewport` (lines 380-383):
`translate(pan.x, pan.y) scale(zoom)`. -/
def viewportTransform (s : ZoomPanState) : ℚ × ℚ × ℚ :=
  (s.panX, s.panY, s.zoom)

/-- Embeds `DiagramRenderer.setZoom` (lines 423-430): the stored zoom is
`Math.max(minZoom, Math.min(maxZoom, zoom))`; the pan is untouched. The
zoom-changed observer is notified unconditionally (when registered). -/
def setZoom (s : ZoomPanState) (zoom : ℚ) : ZoomPanState :=
  { s with zoom := max minZoom (min maxZoom zoom) }

/-- Embeds `DiagramRenderer.zoomIn` (lines 399-402):
`setZoom(Math.min(maxZoom, zoom * 1.1))`. -/
def zoomIn (s : ZoomPanState) : ZoomPanState :=
  setZoom s (min maxZoom (s.zoom * 1.1))

/-- Embeds `DiagramRenderer.zoomOut` (lines 404-407):
`setZoom(Math.max(minZoom, zoom / 1.1))`. -/
def zoomOut (s : ZoomPanState) : ZoomPanState :=
  setZoom s (max minZoom (s.zoom / 1.1))

/-- Embeds the wheel handler of `DiagramRenderer.setupZoomPan`
(lines 290-315). `deltaYPos` is `e.deltaY > 0`; `mouseX`/`mouseY` is the
pointer position relative to the svg. Returns the new state, paired with
whether the guarded block ran (so the viewport was updated and the
zoom-changed observer, when registered, was notified). -/
def wheelZoom (s : ZoomPanState) (deltaYPos : Bool) (mouseX mouseY : ℚ) :
    ZoomPanState × Bool :=
  let zoomFactor : ℚ := if deltaYPos then 0.95 else 1.05
  let newZoom := max minZoom (min maxZoom (s.zoom * zoomFactor))
  if newZoom ≠ s.zoom then
    let zoomPoint := screenToWorld s mouseX mouseY
    let s1 : ZoomPanState := { s with zoom := newZoom }
    let newScreenPoint := worldToScreen s1 zoomPoint.1 zoomPoint.2
    ({ s1 with
       panX := s.panX + (mouseX - newScreenPoint.1),
       panY := s.panY + (mouseY - newScreenPoint.2) }, true)
  else
    (s, false)

/-- The four zoom-mutating operations a caller or the wheel can issue
(`zoomIn`, `zoomOut`, `setZoom`, and a wheel event). -/
inductive ZoomOp where
  | zoomInOp : ZoomOp
  | zoomOutOp : ZoomOp
  | setZoomOp (z : ℚ) : ZoomOp
  | wheelOp (deltaYPos : Bool) (mouseX mouseY : ℚ) : ZoomOp

/-- Applies one `ZoomOp` to the state, exactly as the corresponding
`DiagramRenderer` method does. -/
def applyZoomOp (s : ZoomPanState) : ZoomOp → ZoomPanState
  | .zoomInOp => zoomIn s
  | .zoomOutOp => zoomOut s
  | .setZoomOp z => setZoom s z
  | .wheelOp d mx my => (wheelZoom s d mx my).1

/-- Embeds the position computation of the drag-move handler `onMouseMove`
in `DiagramRenderer.makeDraggable` (lines 231-259): screen delta from the
drag-start pointer position, added raw to the drag-start table position
(the source has `newX = startX + deltaX` with no division), then clamped
per axis to [-1000, clientExtent / zoom + 1000] where clientExtent is
`svg.clientWidth` resp. `svg.clientHeight`. Returns the constrained
position that lines 249-256 store on the element and in the table map. -/
def dragMove (startX startY startMouseX startMouseY
    currentMouseX currentMouseY zoom clientWidth clientHeight : ℚ) : ℚ × ℚ :=
  let deltaX := currentMouseX - startMouseX
  let deltaY := currentMouseY - startMouseY
  let newX := startX + deltaX
  let newY := startY + deltaY
  let viewportWidth := clientWidth / zoom
  let viewportHeight := clientHeight / zoom
  let constrainedX := max (-1000) (min newX (viewportWidth + 1000))
  let constrainedY := max (-1000) (min newY (viewportHeight + 1000))
  (constrainedX, constrainedY)

/-- Follows the words of the C1 claim and spec section 4.5 (refinement
comparison against `dragMove`, which embeds the source): the screen-space
delta is divided by the current zoom before being applied to the start
position; the clamp is the same. -/
def dragMoveClaimed (startX startY startMouseX startMouseY
    currentMouseX currentMouseY zoom clientWidth clientHeight : ℚ) : ℚ × ℚ :=
  let deltaX := (currentMouseX - startMouseX) / zoom
  let deltaY := (currentMouseY - startMouseY) / zoom
  let newX := startX + deltaX
  let newY := startY + deltaY
  let viewportWidth := clientWidth / zoom
  let viewportHeight := clientHeight / zoom
  let constrainedX := max (-1000) (min newX (viewportWidth + 1000))
  let constrainedY := max (-1000) (min newY (viewportHeight + 1000))
  (constrainedX, constrainedY)

/-- A schema field as consumed by the renderer. Of the parsed field
object only `name` is read by the functions the claims are about
(`findIndex` comparisons and row counting); `type`, `pk` and `id` only
style the drawing in `TableRenderer.renderField`. -/
structure Field where
  name : String
  deriving DecidableEq, Repr

/-- A schema table as consumed by the renderer: `table.id`, `table.name`
and `table.fields` are the properties the source reads. -/
structure Table where
  id : Option String
  name : String
  fields : List Field
  deriving DecidableEq, Repr

/-- An entry of the `DiagramRenderer.tables` map as built by
`renderTables` (lines 148-156): the table plus its live position and
size. -/
structure TableData where
  table : Table
  x : ℚ
  y : ℚ
  width : ℚ
  height : ℚ
  deriving DecidableEq, Repr

/-- Embeds the table-entry construction of `DiagramRenderer.renderTables`
(lines 132-158) with its running index: grid position
x = (index mod 3) * 300 + 50, y = (index div 3) * 250 + 50, width 250,
height 35 + fieldCount * 30. -/
def renderTablesFrom : ℕ → List Table → List TableData
  | _, [] => []
  | i, t :: rest =>
      { table := t,
        x := ((i % 3 : ℕ) : ℚ) * 300 + 50,
        y := ((i / 3 : ℕ) : ℚ) * 250 + 50,
        width := 250,
        height := 35 + (t.fields.length : ℚ) * 30 } :: renderTablesFrom (i + 1) rest

/-- `DiagramRenderer.renderTables` starts its index at 0. -/
def renderTables (tables : List Table) : List TableData :=
  renderTablesFrom 0 tables

/-- Embeds `DiagramRenderer.autoLayout` (lines 176-197) with its running
index: every table entry, in map order, is re-assigned
x = (index mod 3) * 300 + 50, y = (index div 3) * 250 + 50
(cols = 3, spacing = 300), leaving the rest of the entry unchanged. -/
def autoLayoutFrom : ℕ → List TableData → List TableData
  | _, [] => []
  | i, td :: rest =>
      { td with
        x := ((i % 3 : ℕ) : ℚ) * 300 + 50,
        y := ((i / 3 : ℕ) : ℚ) * 250 + 50 } :: autoLayoutFrom (i + 1) rest

/-- `DiagramRenderer.autoLayout` starts its index at 0. -/
def autoLayout (tables : List TableData) : List TableData :=
  autoLayoutFrom 0 tables

/-- Embeds `DiagramRenderer.findTableByName` (lines 436-443): first table
entry whose `table.name` equals the argument, else null. -/
def findTableByName (tables : List TableData) (tableName : String) :
    Option TableData :=
  tables.find? (fun td => td.table.name == tableName)

/-- Embeds `RelationshipRenderer.getConnectionPoint` (lines 702-715).
`fieldName` is optional because the source may pass `undefined` through
from a relationship without explicit fields; the strict-equality
comparison `f.name === fieldName` then matches no field. `findIdx?`
models `findIndex` with its -1-if-absent sentinel. The unused
`otherTableData` and `isTarget` parameters of the source are omitted.
Result: x = table x + 50; y is the matched field row center
y + 35 + index * 30 + 15, or the table vertical midpoint y + height / 2
when no field matches. -/
def getConnectionPoint (tableData : TableData) (fieldName : Option String) :
    ℚ × ℚ :=
  match tableData.table.fields.findIdx? (fun f => some f.name == fieldName) with
  | none => (tableData.x + 50, tableData.y + tableData.height / 2)
  | some fieldIndex =>
      (tableData.x + 50, tableData.y + 35 + (fieldIndex : ℚ) * 30 + 15)

/-- Embeds `RelationshipRenderer.createManhattanPath` (lines 720-735) as
the sequence of points of the emitted SVG path string
(`M p1 L p2 [L p3 L p4]`): a 2-point straight segment when the vertical
coordinates differ by less than 15, else the 4-point orthogonal path
through the bend line bendX = (endX - 50) - 20. The second parameter is
named `finish` because `end` is reserved in Lean. -/
def createManhattanPath (start finish : ℚ × ℚ) : List (ℚ × ℚ) :=
  let startX := start.1
  let startY := start.2
  let endX := finish.1
  let endY := finish.2
  if |startY - endY| < 15 then
    [(startX, startY), (endX, endY)]
  else
    let tableMargin : ℚ := 20
    let targetTableX := endX - 50
    let bendX := targetTableX - tableMargin
    [(startX, startY), (bendX, startY), (bendX, endY), (endX, endY)]

/-- A parsed relationship object as consumed by `RelationshipRenderer`:
the properties the source reads are `id`, `name`, `fromTable`,
`fromField`, `toTable`, `toField`, each of which may be absent
(undefined) in the parser output. -/
structure Ref where
  id : Option String
  name : Option String
  fromTable : Option String
  fromField : Option String
  toTable : Option String
  toField : Option String
  deriving DecidableEq, Repr

/-- The endpoint record returned by
`RelationshipRenderer.parseRelationship`: table names are present
strings; field names may still be undefined when the source copies an
absent `fromField`/`toField` through in the explicit branch. -/
structure RelInfo where
  fromTable : String
  fromField : Option String
  toTable : String
  toField : Option String
  deriving DecidableEq, Repr

/-- JavaScript truthiness of an optional string property: absent
(undefined) and the empty string are falsy. -/
def jsTruthy : Option String → Bool
  | none => false
  | some s => !s.isEmpty

/-- Models JavaScript `s.split(sep)` for the one separator the source
uses, the 4-character string "_to_": leftmost-first scan, each
non-overlapping occurrence of the separator ends the current piece.
Structural recursion on the character list so that concrete instances
evaluate in the kernel (Lean `String.splitOn` does not). First argument
is the reversed accumulator of the current piece. -/
def splitOnToAux : List Char → List Char → List (List Char)
  | acc, '_' :: 't' :: 'o' :: '_' :: rest => acc.reverse :: splitOnToAux [] rest
  | acc, c :: rest => splitOnToAux (c :: acc) rest
  | acc, [] => [acc.reverse]

/-- JavaScript `name.split("_to_")` on a Lean string. -/
def jsSplitOnTo (s : String) : List String :=
  (splitOnToAux [] s.toList).map (fun cs => String.mk cs)

/-- Embeds `RelationshipRenderer.parseRelationship` (lines 662-685):
prefer explicit truthy `fromTable`/`toTable` (fields copied through as
they are, even when absent); otherwise, when the truthy `name` splits on
"_to_" into exactly 2 parts, derive both endpoints with field "id"; else
null. The source guard `name.includes(..)` before the split is
equivalent to the split producing more than one part, so checking the
part count alone preserves the semantics. `Option.getD` extracts the
table names, which the truthiness guard ensures are present. -/
def parseRelationship (ref : Ref) : Option RelInfo :=
  if jsTruthy ref.fromTable && jsTruthy ref.toTable then
    some
      { fromTable := ref.fromTable.getD "",
        fromField := ref.fromField,
        toTable := ref.toTable.getD "",
        toField := ref.toField }
  else
    match ref.name with
    | none => none
    | some n =>
        if n.isEmpty then none
        else
          let parts := jsSplitOnTo n
          if parts.length == 2 then
            some
              { fromTable := parts.getD 0 "",
                fromField := some "id",
                toTable := parts.getD 1 "",
                toField := some "id" }
          else none

/-- Embeds `DiagramRenderer.renderRelationships` (lines 160-174) at the
level of which relationships end up rendered: `RelationshipRenderer.render`
returns null exactly when `parseRelationship` returns null (lines
645-660), and null elements are not added to the relationships map. -/
def renderRelationships (refs : List Ref) : List RelInfo :=
  refs.filterMap parseRelationship

/-- Embeds `RelationshipRenderer.updatePath` (lines 687-700) as a
transformer of the stored path attribute (the d attribute of the path
element, as a point list): when either referenced table is absent from
the table map the method returns early and the old attribute survives;
otherwise it overwrites the attribute with the Manhattan path between
the two connection points. The `!this.element || !this.relInfo` guard is
outside this model: the claims concern renderers whose `render()`
succeeded, which always sets both. -/
def updatePath (tables : List TableData) (relInfo : RelInfo)
    (oldPath : Option (List (ℚ × ℚ))) : Option (List (ℚ × ℚ)) :=
  match findTableByName tables relInfo.fromTable,
      findTableByName tables relInfo.toTable with
  | some fromTableData, some toTableData =>
      some (createManhattanPath
        (getConnectionPoint fromTableData relInfo.fromField)
        (getConnectionPoint toTableData relInfo.toField))
  | _, _ => oldPath

/-- One schema of the parsed dbml data: the source reads
`schema.tables || []` and `schema.refs || []`, so both may be absent. -/
structure Schema where
  tables : Option (List Table)
  refs : Option (List Ref)
  deriving DecidableEq, Repr

/-- The argument of `DiagramRenderer.render`: the source reads
`dbmlData.schemas` and `dbmlData.schemas[0]`. -/
structure DbmlData where
  schemas : Option (List Schema)
  deriving DecidableEq, Repr

/-- The diagram-content state `render` rebuilds: the tables map and the
relationships map (element handles abstracted to the data that drives
them). -/
structure DiagramModel where
  tables : List TableData
  rels : List RelInfo
  deriving DecidableEq, Repr

/-- Embeds `DiagramRenderer.clearDiagram` (lines 125-130): both maps and
both layers emptied. -/
def clearDiagram : DiagramModel :=
  { tables := [], rels := [] }

/-- Embeds `DiagramRenderer.render` (lines 111-123): missing data,
missing schemas array, or missing first schema clears the diagram and
returns; otherwise clear, render tables, render relationships, then
auto-layout. A `none` first element of the schemas array cannot occur in
this model, matching a parser that produces an array of schema objects;
absent first schema is the empty array. -/
def render (dbmlData : Option DbmlData) : DiagramModel :=
  match dbmlData with
  | none => clearDiagram
  | some d =>
      match d.schemas with
      | none => clearDiagram
      | some [] => clearDiagram
      | some (schema :: _) =>
          { tables := autoLayout (renderTables (schema.tables.getD [])),
            rels := renderRelationships (schema.refs.getD []) }

/-- Concrete 7-entry table list used by witnesses (content irrelevant to
the layout formula). -/
def sampleTables7 : List TableData :=
  List.replicate 7
    { table := { id := none, name := "t", fields := [] },
      x := 0, y := 0, width := 250, height := 35 }

/-- Concrete table used by witnesses: users(id, email) at position
(350, 300). -/
def sampleTableData : TableData :=
  { table := { id := none, name := "users",
               fields := [{ name := "id" }, { name := "email" }] },
    x := 350, y := 300, width := 250, height := 95 }

/-- Concrete relationship used by witnesses: only a conventional name,
no explicit endpoints. -/
def sampleConventionRef : Ref :=
  { id := none, name := some "orders_to_customers",
    fromTable := none, fromField := none, toTable := none, toField := none }

/-- Concrete two-table diagram used by witnesses: orders(id) at the
first grid slot and customers(id) at the second. -/
def sampleDiagramTables : List TableData :=
  [ { table := { id := none, name := "orders", fields := [{ name := "id" }] },
      x := 50, y := 50, width := 250, height := 65 },
    { table := { id := none, name := "customers", fields := [{ name := "id" }] },
      x := 350, y := 50, width := 250, height := 65 } ]

/-- Concrete resolved endpoints orders.id to customers.id, as the
convention derives them. -/
def sampleRelInfo : RelInfo :=
  { fromTable := "orders", fromField := some "id",
    toTable := "customers", toField := some "id" }

/-- Concrete endpoints whose target table is absent from
`sampleDiagramTables`. -/
def ghostRelInfo : RelInfo :=
  { fromTable := "orders", fromField := some "id",
    toTable := "ghost", toField := some "id" }

lemma minZoom_le_maxZoom : minZoom ≤ maxZoom := by
  unfold minZoom maxZoom; norm_num

lemma zero_lt_minZoom : (0 : ℚ) < minZoom := by
  unfold minZoom; norm_num

lemma anchor_algebra (z Z px mx : ℚ) (hz : z ≠ 0) (hZ : Z ≠ 0) :
    (mx - (px + (mx - ((mx - px) / z * Z + px)))) / Z = (mx - px) / z := by
  field_simp
  ring

lemma setZoom_zoom_mem (s : ZoomPanState) (z : ℚ) :
    minZoom ≤ (setZoom s z).zoom ∧ (setZoom s z).zoom ≤ maxZoom := by
  constructor
  · exact le_max_left _ _
  · exact max_le minZoom_le_maxZoom (min_le_left _ _)

lemma wheelZoom_zoom_mem (s : ZoomPanState) (d : Bool) (mx my : ℚ)
    (h1 : minZoom ≤ s.zoom) (h2 : s.zoom ≤ maxZoom) :
    minZoom ≤ (wheelZoom s d mx my).1.zoom ∧
      (wheelZoom s d mx my).1.zoom ≤ maxZoom := by
  rcases ne_or_eq
      (max minZoom (min maxZoom (s.zoom * (if d then (0.95 : ℚ) else 1.05))))
      s.zoom with hNe | hEq
  · rw [wheelZoom]
    simp only [if_pos hNe]
    exact ⟨le_max_left _ _, max_le minZoom_le_maxZoom (min_le_left _ _)⟩
  · rw [wheelZoom]
    simp only [hEq]
    simp only [ne_eq, not_true_eq_false, if_false]
    exact ⟨h1, h2⟩

lemma applyZoomOp_zoom_mem (s : ZoomPanState) (op : ZoomOp)
    (h1 : minZoom ≤ s.zoom) (h2 : s.zoom ≤ maxZoom) :
    minZoom ≤ (applyZoomOp s op).zoom ∧ (applyZoomOp s op).zoom ≤ maxZoom := by
  cases op with
  | zoomInOp => exact setZoom_zoom_mem _ _
  | zoomOutOp => exact setZoom_zoom_mem _ _
  | setZoomOp z => exact setZoom_zoom_mem _ _
  | wheelOp d mx my => exact wheelZoom_zoom_mem s d mx my h1 h2

lemma foldl_applyZoomOp_zoom_mem (ops : List ZoomOp) :
    ∀ (s : ZoomPanState), minZoom ≤ s.zoom → s.zoom ≤ maxZoom →
      minZoom ≤ (ops.foldl applyZoomOp s).zoom ∧
        (ops.foldl applyZoomOp s).zoom ≤ maxZoom := by
  induction ops with
  | nil => intro s h1 h2; exact ⟨h1, h2⟩
  | cons op rest ih =>
      intro s h1 h2
      have h := applyZoomOp_zoom_mem s op h1 h2
      exact ih (applyZoomOp s op) h.1 h.2

/-- C2: for every zoom state with zoom in [0.25, 3.0], every pan offset,
every pointer screen position and a single wheel event at that position,
the world point under the pointer computed by `screenToWorld` before the
event equals the one computed after the event: the pan adjustment of the
wheel handler exactly compensates the zoom change. -/
theorem wheelZoom_anchors_pointer (s : ZoomPanState) (d : Bool) (mx my : ℚ)
    (h1 : minZoom ≤ s.zoom) (h2 : s.zoom ≤ maxZoom) :
    screenToWorld (wheelZoom s d mx my).1 mx my = screenToWorld s mx my := by
  have hz : s.zoom ≠ 0 := ne_of_gt (lt_of_lt_of_le zero_lt_minZoom h1)
  rcases ne_or_eq
      (max minZoom (min maxZoom (s.zoom * (if d then (0.95 : ℚ) else 1.05))))
      s.zoom with hNe | hEq
  · have hz2 :
        max minZoom (min maxZoom (s.zoom * (if d then (0.95 : ℚ) else 1.05))) ≠ 0 :=
      ne_of_gt (lt_of_lt_of_le zero_lt_minZoom (le_max_left _ _))
    rw [wheelZoom]
    simp only [if_pos hNe]
    simp only [screenToWorld, worldToScreen]
    simp only [Prod.mk.injEq]
    exact ⟨anchor_algebra _ _ _ _ hz hz2, anchor_algebra _ _ _ _ hz hz2⟩
  · rw [wheelZoom]
    simp only [hEq]
    simp only [ne_eq, not_true_eq_false, if_false]

/-- Witness for C2: a concrete zoom-in wheel event at zoom 1, pan (0, 0),
pointer (10, 20) keeps the world point under the pointer fixed. -/
theorem wheelZoom_anchors_pointer_witness :
    minZoom ≤ (1 : ℚ) ∧ (1 : ℚ) ≤ maxZoom ∧
      screenToWorld (wheelZoom ⟨1, 0, 0⟩ false 10 20).1 10 20 =
        screenToWorld ⟨1, 0, 0⟩ 10 20 :=
  ⟨by norm_num [minZoom], by norm_num [maxZoom],
    wheelZoom_anchors_pointer ⟨1, 0, 0⟩ false 10 20
      (by norm_num [minZoom]) (by norm_num [maxZoom])⟩

/-- C3: starting from zoom = 1.0, after any finite sequence of `zoomIn`,
`zoomOut`, `setZoom` with arbitrary argument, and wheel-zoom events, the
stored zoom always lies in [0.25, 3.0]. Out-of-range `setZoom` requests
are silently clamped by the `max minZoom (min maxZoom _)` formula and all
operations are total functions, so no input raises an error. -/
theorem zoom_always_in_range (px py : ℚ) (ops : List ZoomOp) :
    (0.25 : ℚ) ≤ (ops.foldl applyZoomOp ⟨1, px, py⟩).zoom ∧
      (ops.foldl applyZoomOp ⟨1, px, py⟩).zoom ≤ (3.0 : ℚ) := by
  have h := foldl_applyZoomOp_zoom_mem ops ⟨1, px, py⟩
    (by norm_num [minZoom]) (by norm_num [maxZoom])
  unfold minZoom maxZoom at h
  exact h

/-- C10: a wheel event for which the clamped new zoom equals the current
zoom changes nothing: the handler returns the state unchanged (zoom and
pan), hence the viewport transform is unchanged, and the zoom-changed
notification branch is not reached. -/
theorem wheelZoom_noop_when_clamped_equal (s : ZoomPanState) (d : Bool)
    (mx my : ℚ)
    (h : max minZoom (min maxZoom (s.zoom * (if d then (0.95 : ℚ) else 1.05)))
        = s.zoom) :
    wheelZoom s d mx my = (s, false) ∧
      viewportTransform (wheelZoom s d mx my).1 = viewportTransform s := by
  have heq : wheelZoom s d mx my = (s, false) := by
    rw [wheelZoom]
    simp only [h]
    simp only [ne_eq, not_true_eq_false, if_false]
  exact ⟨heq, by rw [heq]⟩

/-- Witness for C10: at zoom 3.0 (the upper bound) a zoom-in wheel tick
(deltaY < 0, factor 1.05) clamps back to 3.0 and the handler leaves the
state untouched and emits no notification. -/
theorem wheelZoom_noop_when_clamped_equal_witness :
    wheelZoom ⟨3, 5, 7⟩ false 10 20 = (⟨3, 5, 7⟩, false) :=
  (wheelZoom_noop_when_clamped_equal ⟨3, 5, 7⟩ false 10 20
    (by norm_num [minZoom, maxZoom])).1

/-- C1 as stated is false on the code: at zoom 2, with drag start at
world (0, 0) and a pointer delta of (100, 0) on a 800 by 600 canvas, the
handler stores x = 100 (raw delta, line 241 of the source adds the screen
delta undivided), while the claimed formula (delta divided by zoom)
yields x = 50. -/
theorem dragMove_zoom_division_counterexample :
    dragMove 0 0 0 0 100 0 2 800 600 = (100, 0) ∧
      dragMoveClaimed 0 0 0 0 100 0 2 800 600 = (50, 0) ∧
      dragMove 0 0 0 0 100 0 2 800 600 ≠
        dragMoveClaimed 0 0 0 0 100 0 2 800 600 := by
  refine ⟨?_, ?_, ?_⟩
  · unfold dragMove
    norm_num [min_def, max_def]
  · unfold dragMoveClaimed
    norm_num [min_def, max_def]
  · intro h
    have h1 : dragMove 0 0 0 0 100 0 2 800 600 = (100, 0) := by
      unfold dragMove
      norm_num [min_def, max_def]
    have h2 : dragMoveClaimed 0 0 0 0 100 0 2 800 600 = (50, 0) := by
      unfold dragMoveClaimed
      norm_num [min_def, max_def]
    rw [h1, h2] at h
    simp at h

/-- C1 (amended): on every drag-move event the stored world position
equals the position at drag start plus the raw pointer screen delta (not
divided by zoom), clamped in each axis to
[-1000, clientExtent / zoom + 1000], the upper bound being the svg
client extent divided by the current zoom, plus the 1000 margin. -/
theorem dragMove_formula (startX startY startMouseX startMouseY
    currentMouseX currentMouseY zoom clientWidth clientHeight : ℚ) :
    dragMove startX startY startMouseX startMouseY
        currentMouseX currentMouseY zoom clientWidth clientHeight =
      (max (-1000) (min (startX + (currentMouseX - startMouseX))
          (clientWidth / zoom + 1000)),
       max (-1000) (min (startY + (currentMouseY - startMouseY))
          (clientHeight / zoom + 1000))) := rfl

/-- C4: for every pair of connection points, a vertical difference below
15 yields the single straight segment with exactly 2 points, and
otherwise the 3-segment orthogonal path with exactly 4 points through
the bend line x = end x - 50 - 20: horizontal to the bend, vertical
along it from start y to end y, horizontal into the end point. -/
theorem createManhattanPath_shape (s e : ℚ × ℚ) :
    (|s.2 - e.2| < 15 →
      createManhattanPath s e = [(s.1, s.2), (e.1, e.2)] ∧
        (createManhattanPath s e).length = 2) ∧
    (¬ |s.2 - e.2| < 15 →
      createManhattanPath s e =
          [(s.1, s.2), (e.1 - 50 - 20, s.2), (e.1 - 50 - 20, e.2),
            (e.1, e.2)] ∧
        (createManhattanPath s e).length = 4) := by
  constructor
  · intro h
    refine ⟨?_, ?_⟩ <;> simp [createManhattanPath, h]
  · intro h
    refine ⟨?_, ?_⟩ <;> simp [createManhattanPath, h]

/-- Witness for C4: concrete near-horizontal endpoints give the 2-point
segment, and endpoints 100 apart vertically give the 4-point path with
bend x = 300 - 50 - 20 = 230. -/
theorem createManhattanPath_shape_witness :
    createManhattanPath (0, 0) (300, 5) = [(0, 0), (300, 5)] ∧
      createManhattanPath (0, 0) (300, 100) =
        [(0, 0), (230, 0), (230, 100), (300, 100)] := by
  constructor
  · exact ((createManhattanPath_shape (0, 0) (300, 5)).1 (by norm_num)).1
  · have h :=
      ((createManhattanPath_shape (0, 0) (300, 100)).2 (by norm_num)).1
    norm_num at h
    exact h

/-- C5: the connection point of a table for a field name has x-coordinate
table x + 50; when the field name is found at index i by the linear scan
of the field list the y-coordinate is table y + 35 + 30 * i + 15, and
when it is not found the y-coordinate is the vertical midpoint
table y + height / 2. -/
theorem getConnectionPoint_resolution (td : TableData) (fieldName : String)
    (i : ℕ) :
    (getConnectionPoint td (some fieldName)).1 = td.x + 50 ∧
    (td.table.fields.findIdx? (fun f => some f.name == some fieldName)
        = some i →
      (getConnectionPoint td (some fieldName)).2
        = td.y + 35 + 30 * (i : ℚ) + 15) ∧
    (td.table.fields.findIdx? (fun f => some f.name == some fieldName)
        = none →
      (getConnectionPoint td (some fieldName)).2
        = td.y + td.height / 2) := by
  unfold getConnectionPoint
  refine ⟨?_, ?_, ?_⟩
  · cases hidx : td.table.fields.findIdx? (fun f => some f.name == some fieldName) <;>
      simp [hidx]
  · intro h
    simp only [h]
    ring
  · intro h
    simp only [h]

/-- Witness for C5: in users(id, email) at (350, 300) with height 95,
the field email is found at index 1, so its connection point is
(350 + 50, 300 + 35 + 30 + 15) = (400, 380); the absent field ghost
falls back to the midpoint (400, 300 + 95 / 2). -/
theorem getConnectionPoint_resolution_witness :
    (getConnectionPoint sampleTableData (some "email")).1 = 400 ∧
      (getConnectionPoint sampleTableData (some "email")).2 = 380 ∧
      (getConnectionPoint sampleTableData (some "ghost")).2 = 695 / 2 := by
  have hfound := getConnectionPoint_resolution sampleTableData "email" 1
  have hmiss := getConnectionPoint_resolution sampleTableData "ghost" 0
  refine ⟨?_, ?_, ?_⟩
  · rw [hfound.1]
    norm_num [sampleTableData]
  · rw [hfound.2.1 (by decide)]
    norm_num [sampleTableData]
  · rw [hmiss.2.2 (by decide)]
    norm_num [sampleTableData]

lemma autoLayoutFrom_length (ts : List TableData) :
    ∀ k : ℕ, (autoLayoutFrom k ts).length = ts.length := by
  induction ts with
  | nil => intro k; rfl
  | cons td rest ih =>
      intro k
      simp [autoLayoutFrom, ih]

lemma autoLayoutFrom_get (ts : List TableData) :
    ∀ (k i : ℕ) (h : i < (autoLayoutFrom k ts).length),
      ((autoLayoutFrom k ts).get ⟨i, h⟩).x
          = (((k + i) % 3 : ℕ) : ℚ) * 300 + 50 ∧
        ((autoLayoutFrom k ts).get ⟨i, h⟩).y
          = (((k + i) / 3 : ℕ) : ℚ) * 250 + 50 := by
  induction ts with
  | nil =>
      intro k i h
      simp [autoLayoutFrom] at h
  | cons td rest ih =>
      intro k i h
      cases i with
      | zero => simp [autoLayoutFrom]
      | succ n =>
          have h2 : n < (autoLayoutFrom (k + 1) rest).length := by
            have := h
            simp only [autoLayoutFrom, List.length_cons] at this
            omega
          have ihres := ih (k + 1) n h2
          have hget :
              (autoLayoutFrom k (td :: rest)).get ⟨n + 1, h⟩
                = (autoLayoutFrom (k + 1) rest).get ⟨n, h2⟩ := rfl
          rw [hget]
          have harith : k + (n + 1) = (k + 1) + n := by omega
          rw [harith]
          exact ihres

/-- C6: the layout assigns the table at index i the world position
x = (i mod 3) * 300 + 50, y = (i div 3) * 250 + 50; the assignment
depends only on the index. -/
theorem autoLayout_grid_position (ts : List TableData) (i : ℕ)
    (h : i < (autoLayout ts).length) :
    ((autoLayout ts).get ⟨i, h⟩).x = ((i % 3 : ℕ) : ℚ) * 300 + 50 ∧
      ((autoLayout ts).get ⟨i, h⟩).y = ((i / 3 : ℕ) : ℚ) * 250 + 50 := by
  have res := autoLayoutFrom_get ts 0 i h
  simpa using res

/-- Witness for C6: with 7 tables the table at index 4 is placed at
x = (4 mod 3) * 300 + 50 = 350 and y = (4 div 3) * 250 + 50 = 300. -/
theorem autoLayout_grid_position_witness :
    ((autoLayout sampleTables7).get ⟨4, by decide⟩).x = 350 ∧
      ((autoLayout sampleTables7).get ⟨4, by decide⟩).y = 300 := by
  have res := autoLayout_grid_position sampleTables7 4 (by decide)
  refine ⟨?_, ?_⟩
  · rw [res.1]; norm_num
  · rw [res.2]; norm_num

/-- C7: a relationship with truthy explicit source and target tables
uses them (and its explicit fields) as endpoints; otherwise a name of
the form table_to_table derives both endpoints with field id; when
neither resolves, parsing yields null and the relationship is dropped
from the rendered list without an error. -/
theorem parseRelationship_resolution (r : Ref) (n a b : String)
    (rest : List Ref) :
    (jsTruthy r.fromTable = true → jsTruthy r.toTable = true →
      parseRelationship r = some
        { fromTable := r.fromTable.getD "", fromField := r.fromField,
          toTable := r.toTable.getD "", toField := r.toField }) ∧
    (¬ (jsTruthy r.fromTable = true ∧ jsTruthy r.toTable = true) →
      r.name = some n → n.isEmpty = false → jsSplitOnTo n = [a, b] →
      parseRelationship r = some
        { fromTable := a, fromField := some "id",
          toTable := b, toField := some "id" }) ∧
    (¬ (jsTruthy r.fromTable = true ∧ jsTruthy r.toTable = true) →
      r.name = none →
      parseRelationship r = none) ∧
    (¬ (jsTruthy r.fromTable = true ∧ jsTruthy r.toTable = true) →
      r.name = some n → n.isEmpty = false → (jsSplitOnTo n).length ≠ 2 →
      parseRelationship r = none) ∧
    (parseRelationship r = none →
      renderRelationships (r :: rest) = renderRelationships rest) := by
  refine ⟨?_, ?_, ?_, ?_, ?_⟩
  · intro h1 h2
    unfold parseRelationship
    rw [if_pos (by rw [h1, h2]; rfl)]
  · intro hnot hname hne hsplit
    have hcond : (jsTruthy r.fromTable && jsTruthy r.toTable) = false := by
      cases hA : jsTruthy r.fromTable <;> cases hB : jsTruthy r.toTable <;>
        simp_all
    unfold parseRelationship
    rw [hcond]
    simp only [Bool.false_eq_true, if_false]
    rw [hname]
    simp only [hne, Bool.false_eq_true, if_false, hsplit]
    rfl
  · intro hnot hname
    have hcond : (jsTruthy r.fromTable && jsTruthy r.toTable) = false := by
      cases hA : jsTruthy r.fromTable <;> cases hB : jsTruthy r.toTable <;>
        simp_all
    unfold parseRelationship
    rw [hcond]
    simp only [Bool.false_eq_true, if_false]
    rw [hname]
  · intro hnot hname hne hlen
    have hcond : (jsTruthy r.fromTable && jsTruthy r.toTable) = false := by
      cases hA : jsTruthy r.fromTable <;> cases hB : jsTruthy r.toTable <;>
        simp_all
    unfold parseRelationship
    rw [hcond]
    simp only [Bool.false_eq_true, if_false]
    rw [hname]
    simp only [hne, Bool.false_eq_true, if_false]
    rw [if_neg (by simpa using hlen)]
  · intro hnone
    unfold renderRelationships
    rw [List.filterMap_cons]
    rw [hnone]

/-- Witness for C7: the explicit branch on concrete endpoints, the
conventional name orders_to_customers resolving to orders.id and
customers.id, and a relationship with neither (dropped from the rendered
list). -/
theorem parseRelationship_resolution_witness :
    parseRelationship
        { id := none, name := none, fromTable := some "posts",
          fromField := some "user_id", toTable := some "users",
          toField := some "id" }
      = some
        { fromTable := "posts", fromField := some "user_id",
          toTable := "users", toField := some "id" } ∧
    parseRelationship sampleConventionRef
      = some
        { fromTable := "orders", fromField := some "id",
          toTable := "customers", toField := some "id" } ∧
    renderRelationships
        [{ id := none, name := some "mystery", fromTable := none,
           fromField := none, toTable := none, toField := none }]
      = renderRelationships [] := by
  refine ⟨?_, ?_, ?_⟩
  · exact (parseRelationship_resolution
      { id := none, name := none, fromTable := some "posts",
        fromField := some "user_id", toTable := some "users",
        toField := some "id" } "" "" "" []).1 (by decide) (by decide)
  · exact (parseRelationship_resolution sampleConventionRef
      "orders_to_customers" "orders" "customers" []).2.1
      (by decide) rfl (by decide) (by decide)
  · refine (parseRelationship_resolution
      { id := none, name := some "mystery", fromTable := none,
        fromField := none, toTable := none, toField := none }
      "mystery" "" "" []).2.2.2.2 ?_
    exact (parseRelationship_resolution
      { id := none, name := some "mystery", fromTable := none,
        fromField := none, toTable := none, toField := none }
      "mystery" "" "" []).2.2.2.1 (by decide) rfl (by decide) (by decide)

/-- C8: when either referenced table is absent from the table map,
updatePath leaves the stored path unchanged (a no-op, total, no error);
and when both referenced tables exist, updatePath is idempotent:
applying it twice in the same diagram state stores the same path as
applying it once. -/
theorem updatePath_dangling_and_idempotent (tables : List TableData)
    (ri : RelInfo) (d : Option (List (ℚ × ℚ))) :
    ((findTableByName tables ri.fromTable = none ∨
        findTableByName tables ri.toTable = none) →
      updatePath tables ri d = d) ∧
    (∀ ft tt, findTableByName tables ri.fromTable = some ft →
      findTableByName tables ri.toTable = some tt →
      updatePath tables ri (updatePath tables ri d)
        = updatePath tables ri d) := by
  constructor
  · intro h
    unfold updatePath
    rcases h with h | h
    · rw [h]
    · rw [h]
      cases findTableByName tables ri.fromTable <;> rfl
  · intro ft tt hft htt
    unfold updatePath
    rw [hft, htt]

/-- Witness for C8: against the concrete orders/customers diagram, the
endpoints referencing the absent table ghost leave the path untouched,
and the resolved orders-to-customers endpoints give an idempotent
update. -/
theorem updatePath_dangling_and_idempotent_witness :
    updatePath sampleDiagramTables ghostRelInfo none = none ∧
      updatePath sampleDiagramTables sampleRelInfo
          (updatePath sampleDiagramTables sampleRelInfo none)
        = updatePath sampleDiagramTables sampleRelInfo none := by
  constructor
  · exact (updatePath_dangling_and_idempotent sampleDiagramTables
      ghostRelInfo none).1 (Or.inr (by decide))
  · exact (updatePath_dangling_and_idempotent sampleDiagramTables
      sampleRelInfo none).2
      (sampleDiagramTables.get ⟨0, by decide⟩)
      (sampleDiagramTables.get ⟨1, by decide⟩)
      (by decide) (by decide)

/-- C9: a missing input, an input without a schemas array, and an input
whose schemas array has no first schema all clear the diagram: the
resulting table and relationship mappings are empty, nothing is drawn,
and rendering is a total function, so no error is raised. -/
theorem render_missing_schema_clears (d : DbmlData) :
    render none = clearDiagram ∧
      (d.schemas = none → render (some d) = clearDiagram) ∧
      (d.schemas = some [] → render (some d) = clearDiagram) ∧
      clearDiagram.tables = [] ∧ clearDiagram.rels = [] := by
  refine ⟨rfl, ?_, ?_, rfl, rfl⟩
  · intro h
    obtain ⟨schemas⟩ := d
    simp only [DbmlData.schemas] at h
    subst h
    rfl
  · intro h
    obtain ⟨schemas⟩ := d
    simp only [DbmlData.schemas] at h
    subst h
    rfl

/-- Witness for C9: the concrete inputs with no schemas array and with
an empty schemas array both render the cleared diagram. -/
theorem render_missing_schema_clears_witness :
    render (some { schemas := none }) = clearDiagram ∧
      render (some { schemas := some [] }) = clearDiagram :=
  ⟨(render_missing_schema_clears { schemas := none }).2.1 rfl,
   (render_missing_schema_clears { schemas := some [] }).2.2.1 rfl⟩

end DbmlRenderer
